import Mathlib

/-!
Verification of the stale-read detection and cache-refresh protocol in
`pkg/client/informers/externalversions/pipeline/v1/lister.go`.

Go pointers that may be nil are modelled as `Option`; a Go `(value, error)`
return pair is a product whose second component is `Option E` (with `none`
standing for a nil error).  The per-namespace memo map `map[string]bool` is a
total function `String → Bool` (a missing key reads as `false`, as in Go), and
writing a key is a functional update.  Every remote call made through the
lister interface is recorded in a trace so that call-count properties can be
stated.
-/

namespace PipelineRefresh

/-- Seconds/nanoseconds timestamp standing for the wall-clock value inside
`metav1.Time`. -/
structure MetaTime where
  Sec : Int
  Nsec : Int
deriving DecidableEq

/-- The method `(*metav1.Time).IsZero` from apimachinery: a nil pointer counts
as zero, otherwise the wrapped time is compared with the zero time. -/
def timePtrIsZero : Option MetaTime → Bool
  | none => true
  | some t => t.Sec == 0 && t.Nsec == 0

/-- The fields of `metav1.ObjectMeta` read by the lister code. -/
structure ObjectMeta where
  Name : String
  Namespace : String
deriving DecidableEq

/-- The fields of `metav1.ListOptions` relevant here: `ResourceVersion` is the
consistency token the refresh clears, the other fields ride along unchanged
through `DeepCopy`. -/
structure ListOptions where
  LabelSelector : String
  FieldSelector : String
  ResourceVersion : String
  Limit : Int
  Continue : String
deriving DecidableEq

/-- The `metav1.GetOptions` value; `needRefresh` always passes the zero value
`metav1.GetOptions{}` (lister.go:119). -/
structure GetOptions where
  ResourceVersion : String
deriving DecidableEq

/-- The zero value `metav1.GetOptions{}`. -/
def GetOptions.zero : GetOptions := ⟨""⟩

/-- The refresh options: `ops := options.DeepCopy()` followed by
`ops.ResourceVersion = ""` (lister.go:160-161).  All fields other than
`ResourceVersion` are copied unchanged. -/
def clearResourceVersion (o : ListOptions) : ListOptions :=
  ⟨o.LabelSelector, o.FieldSelector, "", o.Limit, o.Continue⟩

/-- The status fields of `v1.TaskRun` read here (`Status.StartTime`, a
nullable pointer). -/
structure TaskRunStatus where
  StartTime : Option MetaTime
deriving DecidableEq

/-- A `v1.TaskRun`, restricted to the fields the lister code reads. -/
structure TaskRun where
  ObjectMeta : ObjectMeta
  Status : TaskRunStatus
deriving DecidableEq

/-- A `v1.TaskRunList`. -/
structure TaskRunList where
  Items : List TaskRun
deriving DecidableEq

/-- The status fields of `v1.PipelineRun` read here. -/
structure PipelineRunStatus where
  StartTime : Option MetaTime
deriving DecidableEq

/-- A `v1.PipelineRun`, restricted to the fields the lister code reads. -/
structure PipelineRun where
  ObjectMeta : ObjectMeta
  Status : PipelineRunStatus
deriving DecidableEq

/-- A `v1.PipelineRunList`. -/
structure PipelineRunList where
  Items : List PipelineRun
deriving DecidableEq

/-- The generic interface `RefreshLister[T, L]` (lister.go:35-47), as a record
of operations.  `list` and `get` return a nullable result together with a
nullable error, exactly like the Go signatures `(*L, error)` and
`(*T, error)`. -/
structure RefreshLister (T L E : Type) where
  list : String → ListOptions → Option L × Option E
  get : String → String → GetOptions → Option T × Option E
  getItems : Option L → List T
  statusIsEmpty : Option T → Bool

/-- The `metav1.Object` view of an item that `needRefresh` obtains through the
cast `interface{}(item).(metav1.Object)` (lister.go:117). -/
structure MetaObject (T : Type) where
  GetNamespace : T → String
  GetName : T → String

/-- One remote call made through the lister, recorded for counting. -/
inductive RemoteCall where
  | listCall : String → ListOptions → RemoteCall
  | getCall : String → String → GetOptions → RemoteCall
deriving DecidableEq

/-- Result of `needRefresh`: the Go `(bool, error)` pair plus the trace of
`Get` calls the check performed. -/
structure RefreshCheck (E : Type) where
  refresh : Bool
  err : Option E
  calls : List RemoteCall

/-- The divergence detector `needRefresh` (lister.go:112-125).  If the listed
copy's status is non-empty the item is trusted; otherwise the item is
re-fetched directly, a fetch error is itself a refresh signal, and on success
a refresh is needed exactly when the fresh copy's status is non-empty. -/
def needRefresh {T L E : Type} (lister : RefreshLister T L E) (mo : MetaObject T)
    (item : T) : RefreshCheck E :=
  if !(lister.statusIsEmpty (some item)) then
    ⟨false, none, []⟩
  else
    match lister.get (mo.GetNamespace item) (mo.GetName item) GetOptions.zero with
    | (_, some e) => ⟨true, some e,
        [RemoteCall.getCall (mo.GetNamespace item) (mo.GetName item) GetOptions.zero]⟩
    | (fresh, none) => ⟨!(lister.statusIsEmpty fresh), none,
        [RemoteCall.getCall (mo.GetNamespace item) (mo.GetName item) GetOptions.zero]⟩

/-- The loop-break condition of the scan (lister.go:148): `needRefresh`
reported a refresh or returned an error. -/
def needsBreak {T L E : Type} (lister : RefreshLister T L E) (mo : MetaObject T)
    (item : T) : Bool :=
  (needRefresh lister mo item).refresh || (needRefresh lister mo item).err.isSome

/-- Outcome of the scan loop of `fetchOrRefreshList`: whether a refresh is
needed, plus the `Get` calls performed. -/
structure ScanResult where
  needed : Bool
  calls : List RemoteCall

/-- The `for i := range items` loop of `fetchOrRefreshList`
(lister.go:146-157): run `needRefresh` on each item in order and stop at the
first item whose check returns true or an error (the triggering error is only
logged, never kept). -/
def scanItems {T L E : Type} (lister : RefreshLister T L E) (mo : MetaObject T) :
    List T → ScanResult
  | [] => ⟨false, []⟩
  | item :: rest =>
    if needsBreak lister mo item then
      ⟨true, (needRefresh lister mo item).calls⟩
    else
      let s := scanItems lister mo rest
      ⟨s.needed, (needRefresh lister mo item).calls ++ s.calls⟩

/-- The `Get` calls that running `needRefresh` over the given items in order
would perform. -/
def scanGetCalls {T L E : Type} (lister : RefreshLister T L E) (mo : MetaObject T) :
    List T → List RemoteCall
  | [] => []
  | item :: rest => (needRefresh lister mo item).calls ++ scanGetCalls lister mo rest

/-- Result of one `fetchOrRefreshList` round: the returned object and error,
the memo map after the call, and the trace of remote calls made. -/
structure RoundResult (L E : Type) where
  obj : Option L
  err : Option E
  memo : String → Bool
  calls : List RemoteCall

/-- The orchestrator `fetchOrRefreshList` (lister.go:128-173).  It lists via
the fast path; on a list error it returns nil and the error untouched; for a
namespace already in the memo it returns the list as-is; otherwise it scans
the items and, when the scan broke, re-lists with `ResourceVersion` cleared;
finally, when the last list call had no error, it marks the namespace. -/
def fetchOrRefreshList {T L E : Type} (lister : RefreshLister T L E)
    (mo : MetaObject T) (ns : String) (options : ListOptions)
    (cacheChecked : String → Bool) : RoundResult L E :=
  let r := lister.list ns options
  if r.2.isSome then
    ⟨none, r.2, cacheChecked, [RemoteCall.listCall ns options]⟩
  else if cacheChecked ns then
    ⟨r.1, r.2, cacheChecked, [RemoteCall.listCall ns options]⟩
  else
    let s := scanItems lister mo (lister.getItems r.1)
    if s.needed then
      let r2 := lister.list ns (clearResourceVersion options)
      ⟨r2.1, r2.2,
        if r2.2.isNone then fun m => if m = ns then true else cacheChecked m
        else cacheChecked,
        RemoteCall.listCall ns options ::
          (s.calls ++ [RemoteCall.listCall ns (clearResourceVersion options)])⟩
    else
      ⟨r.1, r.2,
        if r.2.isNone then fun m => if m = ns then true else cacheChecked m
        else cacheChecked,
        RemoteCall.listCall ns options :: s.calls⟩

/-- Repeated rounds: apply `fetchOrRefreshList` for each `(namespace,
options)` pair in turn, threading the memo map through, as a long-lived
caller of the orchestrator would. -/
def runRounds {T L E : Type} (lister : RefreshLister T L E) (mo : MetaObject T) :
    List (String × ListOptions) → (String → Bool) → (String → Bool)
  | [], memo => memo
  | (ns, o) :: rest, memo =>
      runRounds lister mo rest (fetchOrRefreshList lister mo ns o memo).memo

/-- The namespaces and options of the `List` calls in a trace, in order. -/
def listCallsOf : List RemoteCall → List (String × ListOptions)
  | [] => []
  | RemoteCall.listCall n o :: rest => (n, o) :: listCallsOf rest
  | RemoteCall.getCall _ _ _ :: rest => listCallsOf rest

/-- The `(namespace, name)` pairs of the `Get` calls in a trace, in order. -/
def getCallsOf : List RemoteCall → List (String × String)
  | [] => []
  | RemoteCall.listCall _ _ :: rest => getCallsOf rest
  | RemoteCall.getCall n m _ :: rest => (n, m) :: getCallsOf rest

namespace TaskRunLister

/-- `TaskRunLister.GetItems` (lister.go:67-72): a nil list yields a nil
slice. -/
def GetItems : Option TaskRunList → List TaskRun
  | none => []
  | some l => l.Items

/-- `TaskRunLister.StatusIsEmpty` (lister.go:75-77):
`run != nil && run.Status.StartTime.IsZero()`.  A nil run therefore yields
false. -/
def StatusIsEmpty : Option TaskRun → Bool
  | none => false
  | some run => timePtrIsZero run.Status.StartTime

/-- A `TaskRunLister` (lister.go:52-77) on top of a backing client: `List` and
`Get` delegate to the client, `GetItems` and `StatusIsEmpty` are the adapter
methods above. -/
def make {E : Type} (clientList : String → ListOptions → Option TaskRunList × Option E)
    (clientGet : String → String → GetOptions → Option TaskRun × Option E) :
    RefreshLister TaskRun TaskRunList E :=
  ⟨clientList, clientGet, GetItems, StatusIsEmpty⟩

end TaskRunLister

namespace PipelineRunLister

/-- `PipelineRunLister.GetItems` (lister.go:97-102): a nil list yields a nil
slice. -/
def GetItems : Option PipelineRunList → List PipelineRun
  | none => []
  | some l => l.Items

/-- `PipelineRunLister.StatusIsEmpty` (lister.go:105-107):
`run != nil && run.Status.StartTime.IsZero()`.  A nil run therefore yields
false. -/
def StatusIsEmpty : Option PipelineRun → Bool
  | none => false
  | some run => timePtrIsZero run.Status.StartTime

/-- A `PipelineRunLister` (lister.go:82-107) on top of a backing client. -/
def make {E : Type} (clientList : String → ListOptions → Option PipelineRunList × Option E)
    (clientGet : String → String → GetOptions → Option PipelineRun × Option E) :
    RefreshLister PipelineRun PipelineRunList E :=
  ⟨clientList, clientGet, GetItems, StatusIsEmpty⟩

end PipelineRunLister

/-- The `metav1.Object` implementation of `v1.TaskRun`, via its
`ObjectMeta`. -/
def TaskRun.metaObject : MetaObject TaskRun :=
  ⟨fun r => r.ObjectMeta.Namespace, fun r => r.ObjectMeta.Name⟩

/-- The `metav1.Object` implementation of `v1.PipelineRun`, via its
`ObjectMeta`. -/
def PipelineRun.metaObject : MetaObject PipelineRun :=
  ⟨fun r => r.ObjectMeta.Namespace, fun r => r.ObjectMeta.Name⟩

section Lemmas

variable {T L E : Type} (lister : RefreshLister T L E) (mo : MetaObject T)

/-- The trace of `needRefresh` holds no `List` calls. -/
theorem listCallsOf_needRefresh (item : T) :
    listCallsOf (needRefresh lister mo item).calls = [] := by
  unfold needRefresh
  split
  · rfl
  · split <;> rfl

/-- The trace of `needRefresh` holds only the `Get` call for the item itself,
when the item's listed status was empty. -/
theorem getCallsOf_needRefresh (item : T) :
    getCallsOf (needRefresh lister mo item).calls = [] ∨
      getCallsOf (needRefresh lister mo item).calls =
        [(mo.GetNamespace item, mo.GetName item)] := by
  unfold needRefresh
  split
  · exact Or.inl rfl
  · split <;> exact Or.inr rfl

theorem scanGetCalls_append (a b : List T) :
    scanGetCalls lister mo (a ++ b) =
      scanGetCalls lister mo a ++ scanGetCalls lister mo b := by
  induction a with
  | nil => simp [scanGetCalls]
  | cons x xs ih => simp [scanGetCalls, ih]

theorem listCallsOf_append (a b : List RemoteCall) :
    listCallsOf (a ++ b) = listCallsOf a ++ listCallsOf b := by
  induction a with
  | nil => rfl
  | cons c cs ih => cases c <;> simp [listCallsOf, ih]

theorem getCallsOf_append (a b : List RemoteCall) :
    getCallsOf (a ++ b) = getCallsOf a ++ getCallsOf b := by
  induction a with
  | nil => rfl
  | cons c cs ih => cases c <;> simp [getCallsOf, ih]

theorem listCallsOf_scanGetCalls (items : List T) :
    listCallsOf (scanGetCalls lister mo items) = [] := by
  induction items with
  | nil => rfl
  | cons x xs ih =>
      simp [scanGetCalls, listCallsOf_append, listCallsOf_needRefresh, ih]

/-- The scan trace never holds a `List` call, whatever the items. -/
theorem listCallsOf_scanItems (items : List T) :
    listCallsOf (scanItems lister mo items).calls = [] := by
  induction items with
  | nil => rfl
  | cons x xs ih =>
      by_cases hx : needsBreak lister mo x = true
      · simp [scanItems, hx, listCallsOf_needRefresh]
      · simp [scanItems, hx, listCallsOf_append, listCallsOf_needRefresh, ih]

/-- When no item breaks the scan, the loop runs to the end: no refresh is
needed and the trace holds the `Get` calls of every item. -/
theorem scanItems_all_clean (items : List T)
    (h : ∀ y ∈ items, needsBreak lister mo y = false) :
    scanItems lister mo items = ⟨false, scanGetCalls lister mo items⟩ := by
  induction items with
  | nil => rfl
  | cons x xs ih =>
      have hx : needsBreak lister mo x = false := h x (List.mem_cons_self x xs)
      have hxs := ih (fun y hy => h y (List.mem_cons_of_mem x hy))
      simp [scanItems, hx, hxs, scanGetCalls]

/-- When `x` is the first item that breaks the scan, the loop stops there: a
refresh is needed, and the trace holds exactly the `Get` calls of the earlier
items and of `x`; no later item is checked. -/
theorem scanItems_first_break (pre : List T) (x : T) (rest : List T)
    (hpre : ∀ y ∈ pre, needsBreak lister mo y = false)
    (hx : needsBreak lister mo x = true) :
    scanItems lister mo (pre ++ x :: rest) =
      ⟨true, scanGetCalls lister mo (pre ++ [x])⟩ := by
  induction pre with
  | nil => simp [scanItems, hx, scanGetCalls]
  | cons y ys ih =>
      have hy : needsBreak lister mo y = false := hpre y (List.mem_cons_self y ys)
      have hys := ih (fun z hz => hpre z (List.mem_cons_of_mem y hz))
      simp [scanItems, hy, hys, scanGetCalls]

variable (ns : String) (options : ListOptions) (memo : String → Bool)

/-- Branch lemma: the initial `List` fails (lister.go:134-137). -/
theorem fetch_listError (e : E) (he : (lister.list ns options).2 = some e) :
    fetchOrRefreshList lister mo ns options memo =
      ⟨none, some e, memo, [RemoteCall.listCall ns options]⟩ := by
  unfold fetchOrRefreshList
  simp [he]

/-- Branch lemma: the initial `List` succeeds and the namespace is already in
the memo (lister.go:139-142). -/
theorem fetch_checked (he : (lister.list ns options).2 = none)
    (hm : memo ns = true) :
    fetchOrRefreshList lister mo ns options memo =
      ⟨(lister.list ns options).1, none, memo, [RemoteCall.listCall ns options]⟩ := by
  unfold fetchOrRefreshList
  simp [he, hm]

/-- Branch lemma: the namespace is unchecked and the scan finds nothing: the
initial list is returned and the namespace is marked (lister.go:144-173). -/
theorem fetch_unchecked_clean (he : (lister.list ns options).2 = none)
    (hm : memo ns = false)
    (hs : (scanItems lister mo (lister.getItems (lister.list ns options).1)).needed
      = false) :
    fetchOrRefreshList lister mo ns options memo =
      ⟨(lister.list ns options).1, none,
        fun m => if m = ns then true else memo m,
        RemoteCall.listCall ns options ::
          (scanItems lister mo (lister.getItems (lister.list ns options).1)).calls⟩ := by
  unfold fetchOrRefreshList
  simp [he, hm, hs]

/-- Branch lemma: the namespace is unchecked and the scan broke: the round
re-lists with `ResourceVersion` cleared, returns that re-list's result and
error, and marks the namespace exactly when the re-list succeeded
(lister.go:144-173). -/
theorem fetch_unchecked_refresh (he : (lister.list ns options).2 = none)
    (hm : memo ns = false)
    (hs : (scanItems lister mo (lister.getItems (lister.list ns options).1)).needed
      = true) :
    fetchOrRefreshList lister mo ns options memo =
      ⟨(lister.list ns (clearResourceVersion options)).1,
        (lister.list ns (clearResourceVersion options)).2,
        if (lister.list ns (clearResourceVersion options)).2.isNone then
          fun m => if m = ns then true else memo m
        else memo,
        RemoteCall.listCall ns options ::
          ((scanItems lister mo (lister.getItems (lister.list ns options).1)).calls ++
            [RemoteCall.listCall ns (clearResourceVersion options)])⟩ := by
  unfold fetchOrRefreshList
  simp [he, hm, hs]

end Lemmas

section Concrete

/-- A non-zero start time used by the concrete scenarios. -/
def wTime : MetaTime := ⟨1, 0⟩

/-- A TaskRun in namespace "ns" with the given name and start time. -/
def wRun (n : String) (st : Option MetaTime) : TaskRun := ⟨⟨n, "ns"⟩, ⟨st⟩⟩

/-- A cached list holding two runs with empty status (the reference scenario
of the spec). -/
def wStale : Option TaskRunList := some ⟨[wRun "a" none, wRun "b" none]⟩

/-- Concrete lister: the fast path serves the stale list, while the direct
client serves the first run with its status already populated. -/
def wListerA : RefreshLister TaskRun TaskRunList Nat :=
  TaskRunLister.make (fun _ _ => (wStale, none))
    (fun _ _ _ => (some (wRun "a" (some wTime)), none))

/-- Concrete lister whose direct `Get` fails with error 7. -/
def wListerGetErr : RefreshLister TaskRun TaskRunList Nat :=
  TaskRunLister.make (fun _ _ => (wStale, none)) (fun _ _ _ => (none, some 7))

/-- Concrete lister whose `List` fails with error 3. -/
def wListerListErr : RefreshLister TaskRun TaskRunList Nat :=
  TaskRunLister.make (fun _ _ => (none, some 3)) (fun _ _ _ => (none, some 7))

/-- The empty memo map. -/
def wEmptyMemo : String → Bool := fun _ => false

/-- The memo map with "ns" already marked. -/
def wMemoNs : String → Bool := fun m => if m = "ns" then true else false

/-- Sample list options with a non-empty resource version. -/
def wOpts : ListOptions := ⟨"lbl", "fld", "v100", 5, "tok"⟩

end Concrete

/-- C2: `needRefresh` returns `(false, nil)` and makes no `Get` call when the
listed item's status is non-empty; when the status is empty and the direct
`Get` succeeds, it returns `(!StatusIsEmpty(freshItem), nil)`. -/
theorem needRefresh_trusts_nonEmpty_and_compares_fresh {T L E : Type}
    (lister : RefreshLister T L E) (mo : MetaObject T) (item : T) :
    (lister.statusIsEmpty (some item) = false →
      needRefresh lister mo item = ⟨false, none, []⟩) ∧
    (lister.statusIsEmpty (some item) = true →
      (lister.get (mo.GetNamespace item) (mo.GetName item) GetOptions.zero).2 = none →
      (needRefresh lister mo item).refresh =
        !(lister.statusIsEmpty
          (lister.get (mo.GetNamespace item) (mo.GetName item) GetOptions.zero).1) ∧
      (needRefresh lister mo item).err = none) := by
  constructor
  · intro h1
    unfold needRefresh
    simp [h1]
  · intro h1 h2
    unfold needRefresh
    rw [h1]
    cases hg : lister.get (mo.GetNamespace item) (mo.GetName item) GetOptions.zero with
    | mk fresh ge =>
        rw [hg] at h2
        simp only at h2
        subst h2
        simp

/-- C2 witness: with the concrete stale-cache lister, an item with populated
status is trusted without a `Get`, while the first stale item compares against
the fresh copy and reports a refresh. -/
theorem needRefresh_trusts_nonEmpty_and_compares_fresh_witness :
    needRefresh wListerA TaskRun.metaObject (wRun "c" (some wTime)) =
      ⟨false, none, []⟩ ∧
    (needRefresh wListerA TaskRun.metaObject (wRun "a" none)).refresh = true := by
  have h1 := needRefresh_trusts_nonEmpty_and_compares_fresh wListerA
    TaskRun.metaObject (wRun "c" (some wTime))
  have h2 := needRefresh_trusts_nonEmpty_and_compares_fresh wListerA
    TaskRun.metaObject (wRun "a" none)
  refine ⟨h1.1 (by decide), ?_⟩
  rw [(h2.2 (by decide) rfl).1]
  decide

/-- C3 counterexample: the claim that `StatusIsEmpty` applied to a null item
returns true is false for both adapters: the `run != nil` conjunct makes a nil
run yield false. -/
theorem statusIsEmpty_nil_claim_false :
    ¬ (TaskRunLister.StatusIsEmpty none = true ∧
        PipelineRunLister.StatusIsEmpty none = true) := by
  decide

/-- C3 amended: for both adapters, `StatusIsEmpty` applied to a null item
returns false (a nil run counts as not-empty, so it can never signal
staleness). -/
theorem statusIsEmpty_nil_false :
    TaskRunLister.StatusIsEmpty none = false ∧
      PipelineRunLister.StatusIsEmpty none = false := by
  decide

/-- C4: when the listed item's status is empty and the direct `Get` fails with
any error, `needRefresh` returns `(true, that error)`, after exactly the one
`Get` call for the item's namespace and name. -/
theorem needRefresh_getError {T L E : Type}
    (lister : RefreshLister T L E) (mo : MetaObject T) (item : T) (e : E)
    (h1 : lister.statusIsEmpty (some item) = true)
    (h2 : (lister.get (mo.GetNamespace item) (mo.GetName item) GetOptions.zero).2
      = some e) :
    needRefresh lister mo item =
      ⟨true, some e,
        [RemoteCall.getCall (mo.GetNamespace item) (mo.GetName item)
          GetOptions.zero]⟩ := by
  unfold needRefresh
  rw [h1]
  cases hg : lister.get (mo.GetNamespace item) (mo.GetName item) GetOptions.zero with
  | mk fresh ge =>
      rw [hg] at h2
      simp only at h2
      subst h2
      simp

/-- C4 witness: with the failing direct client, the stale first item yields
`(true, error 7)`. -/
theorem needRefresh_getError_witness :
    needRefresh wListerGetErr TaskRun.metaObject (wRun "a" none) =
      ⟨true, some 7, [RemoteCall.getCall "ns" "a" GetOptions.zero]⟩ :=
  needRefresh_getError wListerGetErr TaskRun.metaObject (wRun "a" none) 7
    (by decide) rfl

/-- C9: both adapters' `GetItems` return the empty sequence on a null list and
never fail. -/
theorem getItems_nil_empty :
    TaskRunLister.GetItems none = [] ∧ PipelineRunLister.GetItems none = [] :=
  ⟨rfl, rfl⟩

/-- C1: on an unchecked namespace, when some item is the first for which the
divergence check breaks the scan (returns true or an error), the scan stops at
that item — the trace holds `Get` calls only for the earlier items and that
item — exactly one extra `List` call with `ResourceVersion` cleared is made,
the re-list's result and error become the round's result, and on success the
namespace is marked checked. -/
theorem fetchOrRefreshList_divergence_round {T L E : Type}
    (lister : RefreshLister T L E) (mo : MetaObject T) (ns : String)
    (options : ListOptions) (memo : String → Bool)
    (hm : memo ns = false)
    (he : (lister.list ns options).2 = none)
    (pre : List T) (x : T) (rest : List T)
    (hsplit : lister.getItems (lister.list ns options).1 = pre ++ x :: rest)
    (hpre : ∀ y ∈ pre, needsBreak lister mo y = false)
    (hx : needsBreak lister mo x = true) :
    (fetchOrRefreshList lister mo ns options memo).calls =
      RemoteCall.listCall ns options ::
        (scanGetCalls lister mo (pre ++ [x]) ++
          [RemoteCall.listCall ns (clearResourceVersion options)]) ∧
    listCallsOf (fetchOrRefreshList lister mo ns options memo).calls =
      [(ns, options), (ns, clearResourceVersion options)] ∧
    (fetchOrRefreshList lister mo ns options memo).obj =
      (lister.list ns (clearResourceVersion options)).1 ∧
    (fetchOrRefreshList lister mo ns options memo).err =
      (lister.list ns (clearResourceVersion options)).2 ∧
    ((lister.list ns (clearResourceVersion options)).2 = none →
      (fetchOrRefreshList lister mo ns options memo).memo ns = true) := by
  have hscan : scanItems lister mo (lister.getItems (lister.list ns options).1) =
      ⟨true, scanGetCalls lister mo (pre ++ [x])⟩ := by
    rw [hsplit]
    exact scanItems_first_break lister mo pre x rest hpre hx
  have hneeded :
      (scanItems lister mo (lister.getItems (lister.list ns options).1)).needed
        = true := by
    rw [hscan]
  rw [fetch_unchecked_refresh lister mo ns options memo he hm hneeded]
  refine ⟨by rw [hscan], ?_, rfl, rfl, ?_⟩
  · rw [hscan]
    simp [listCallsOf, listCallsOf_append, listCallsOf_scanGetCalls]
  · intro h2
    simp [h2]

/-- C1 witness: the spec's reference scenario — two stale items, the first one
diverging — stops the scan at the first item, issues the cleared-token
re-list, and marks the namespace. -/
theorem fetchOrRefreshList_divergence_round_witness :
    (fetchOrRefreshList wListerA TaskRun.metaObject "ns" wOpts wEmptyMemo).calls =
      RemoteCall.listCall "ns" wOpts ::
        (scanGetCalls wListerA TaskRun.metaObject [wRun "a" none] ++
          [RemoteCall.listCall "ns" (clearResourceVersion wOpts)]) ∧
    (fetchOrRefreshList wListerA TaskRun.metaObject "ns" wOpts wEmptyMemo).memo "ns"
      = true := by
  have h := fetchOrRefreshList_divergence_round wListerA TaskRun.metaObject "ns"
    wOpts wEmptyMemo rfl rfl [] (wRun "a" none) [wRun "b" none] rfl
    (by intro y hy; cases hy) (by decide)
  exact ⟨h.1, h.2.2.2.2 rfl⟩

/-- C5: the error a round returns is always the error (possibly nil) of the
last `List` call it made; a verification error from the scan is never
surfaced. -/
theorem fetchOrRefreshList_err_from_last_list {T L E : Type}
    (lister : RefreshLister T L E) (mo : MetaObject T) (ns : String)
    (options : ListOptions) (memo : String → Bool) :
    ∃ o, (listCallsOf (fetchOrRefreshList lister mo ns options memo).calls).getLast?
        = some (ns, o) ∧
      (fetchOrRefreshList lister mo ns options memo).err = (lister.list ns o).2 := by
  cases he : (lister.list ns options).2 with
  | some e =>
      refine ⟨options, ?_⟩
      rw [fetch_listError lister mo ns options memo e he]
      exact ⟨rfl, he.symm⟩
  | none =>
      by_cases hm : memo ns = true
      · refine ⟨options, ?_⟩
        rw [fetch_checked lister mo ns options memo he hm]
        exact ⟨rfl, he.symm⟩
      · have hm' : memo ns = false := by
          cases h : memo ns
          · rfl
          · exact absurd h hm
        by_cases hs :
            (scanItems lister mo (lister.getItems (lister.list ns options).1)).needed
              = true
        · refine ⟨clearResourceVersion options, ?_⟩
          rw [fetch_unchecked_refresh lister mo ns options memo he hm' hs]
          constructor
          · simp [listCallsOf, listCallsOf_append, listCallsOf_scanItems]
          · rfl
        · have hs' :
              (scanItems lister mo
                (lister.getItems (lister.list ns options).1)).needed = false := by
            cases h :
                (scanItems lister mo
                  (lister.getItems (lister.list ns options).1)).needed
            · rfl
            · exact absurd h hs
          refine ⟨options, ?_⟩
          rw [fetch_unchecked_clean lister mo ns options memo he hm' hs']
          constructor
          · simp [listCallsOf, listCallsOf_scanItems]
          · exact he.symm

/-- C7: for a namespace already marked in the memo, exactly one `List` call
and zero `Get` calls are made, the returned error is that of the single
`List` call, and on success its list is returned as-is with no scanning or
refresh. -/
theorem fetchOrRefreshList_checked_namespace {T L E : Type}
    (lister : RefreshLister T L E) (mo : MetaObject T) (ns : String)
    (options : ListOptions) (memo : String → Bool)
    (hm : memo ns = true) :
    (fetchOrRefreshList lister mo ns options memo).calls =
      [RemoteCall.listCall ns options] ∧
    getCallsOf (fetchOrRefreshList lister mo ns options memo).calls = [] ∧
    (fetchOrRefreshList lister mo ns options memo).err =
      (lister.list ns options).2 ∧
    ((lister.list ns options).2 = none →
      (fetchOrRefreshList lister mo ns options memo).obj =
        (lister.list ns options).1) := by
  cases he : (lister.list ns options).2 with
  | some e =>
      rw [fetch_listError lister mo ns options memo e he]
      refine ⟨rfl, rfl, rfl, ?_⟩
      intro h
      cases h
  | none =>
      rw [fetch_checked lister mo ns options memo he hm]
      exact ⟨rfl, rfl, rfl, fun _ => rfl⟩

/-- C7 witness: with the namespace pre-marked, the round is the single initial
`List` call returning the cached list unchanged. -/
theorem fetchOrRefreshList_checked_namespace_witness :
    (fetchOrRefreshList wListerA TaskRun.metaObject "ns" wOpts wMemoNs).calls =
      [RemoteCall.listCall "ns" wOpts] ∧
    (fetchOrRefreshList wListerA TaskRun.metaObject "ns" wOpts wMemoNs).obj
      = wStale := by
  have h := fetchOrRefreshList_checked_namespace wListerA TaskRun.metaObject "ns"
    wOpts wMemoNs rfl
  exact ⟨h.1, h.2.2.2 rfl⟩

/-- C6: the namespace is marked exactly when the final `List` call succeeded:
on success the memo becomes the pointwise update of the old memo at the
namespace, on any `List` error the memo is unchanged, an initial `List` error
returns immediately with the error verbatim, no memo change and no `Get`
calls, and the surfaced error is verbatim that of one of the two `List`
calls. -/
theorem fetchOrRefreshList_memo_marking {T L E : Type}
    (lister : RefreshLister T L E) (mo : MetaObject T) (ns : String)
    (options : ListOptions) (memo : String → Bool) :
    ((fetchOrRefreshList lister mo ns options memo).err = none →
      ∀ m, (fetchOrRefreshList lister mo ns options memo).memo m =
        if m = ns then true else memo m) ∧
    ((fetchOrRefreshList lister mo ns options memo).err ≠ none →
      ∀ m, (fetchOrRefreshList lister mo ns options memo).memo m = memo m) ∧
    (∀ e, (lister.list ns options).2 = some e →
      fetchOrRefreshList lister mo ns options memo =
        ⟨none, some e, memo, [RemoteCall.listCall ns options]⟩) ∧
    ((fetchOrRefreshList lister mo ns options memo).err =
        (lister.list ns options).2 ∨
      (fetchOrRefreshList lister mo ns options memo).err =
        (lister.list ns (clearResourceVersion options)).2) := by
  cases he : (lister.list ns options).2 with
  | some e =>
      rw [fetch_listError lister mo ns options memo e he]
      refine ⟨?_, fun _ m => rfl, fun e2 he2 => ?_, Or.inl rfl⟩
      · intro h
        exact Option.noConfusion h
      · injection he2 with h3
        subst h3
        rfl
  | none =>
      by_cases hm : memo ns = true
      · rw [fetch_checked lister mo ns options memo he hm]
        refine ⟨?_, fun h => absurd rfl h, fun e2 he2 => Option.noConfusion he2,
          Or.inl rfl⟩
        intro _ m
        by_cases hmn : m = ns
        · simp [hmn, hm]
        · simp [hmn]
      · have hm' : memo ns = false := by
          cases h : memo ns
          · rfl
          · exact absurd h hm
        by_cases hs :
            (scanItems lister mo (lister.getItems (lister.list ns options).1)).needed
              = true
        · rw [fetch_unchecked_refresh lister mo ns options memo he hm' hs]
          refine ⟨?_, ?_, fun e2 he2 => Option.noConfusion he2, Or.inr rfl⟩
          · intro h m
            cases h2 : (lister.list ns (clearResourceVersion options)).2 with
            | some e2 => rw [h2] at h; exact Option.noConfusion h
            | none => simp [h2]
          · intro h m
            cases h2 : (lister.list ns (clearResourceVersion options)).2 with
            | some e2 => simp [h2]
            | none => rw [h2] at h; exact absurd rfl h
        · have hs' :
              (scanItems lister mo
                (lister.getItems (lister.list ns options).1)).needed = false := by
            cases h :
                (scanItems lister mo
                  (lister.getItems (lister.list ns options).1)).needed
            · rfl
            · exact absurd h hs
          rw [fetch_unchecked_clean lister mo ns options memo he hm' hs']
          exact ⟨fun _ m => rfl, fun h => absurd rfl h,
            fun e2 he2 => Option.noConfusion he2, Or.inl rfl⟩

/-- C6 witness: the divergence scenario ends with no error and the namespace
marked; a failing initial `List` returns error 3 verbatim, leaves the memo
empty and makes no `Get` call. -/
theorem fetchOrRefreshList_memo_marking_witness :
    (fetchOrRefreshList wListerA TaskRun.metaObject "ns" wOpts wEmptyMemo).memo "ns"
      = true ∧
    fetchOrRefreshList wListerListErr TaskRun.metaObject "ns" wOpts wEmptyMemo =
      ⟨none, some 3, wEmptyMemo, [RemoteCall.listCall "ns" wOpts]⟩ := by
  have h1 := fetchOrRefreshList_memo_marking wListerA TaskRun.metaObject "ns"
    wOpts wEmptyMemo
  have h2 := fetchOrRefreshList_memo_marking wListerListErr TaskRun.metaObject "ns"
    wOpts wEmptyMemo
  refine ⟨?_, h2.2.2.1 3 rfl⟩
  rw [h1.1 rfl "ns"]
  simp

/-- One round never unsets a memo entry (helper for the monotonicity
claim). -/
theorem fetch_memo_mono {T L E : Type} (lister : RefreshLister T L E)
    (mo : MetaObject T) (ns : String) (options : ListOptions)
    (memo : String → Bool) (m : String) (h : memo m = true) :
    (fetchOrRefreshList lister mo ns options memo).memo m = true := by
  cases he : (lister.list ns options).2 with
  | some e =>
      rw [fetch_listError lister mo ns options memo e he]
      exact h
  | none =>
      by_cases hm : memo ns = true
      · rw [fetch_checked lister mo ns options memo he hm]
        exact h
      · have hm' : memo ns = false := by
          cases h2 : memo ns
          · rfl
          · exact absurd h2 hm
        by_cases hs :
            (scanItems lister mo (lister.getItems (lister.list ns options).1)).needed
              = true
        · rw [fetch_unchecked_refresh lister mo ns options memo he hm' hs]
          cases h2 : (lister.list ns (clearResourceVersion options)).2 with
          | some e2 => simp [h2, h]
          | none =>
              by_cases hmn : m = ns
              · simp [h2, hmn]
              · simp [h2, hmn, h]
        · have hs' :
              (scanItems lister mo
                (lister.getItems (lister.list ns options).1)).needed = false := by
            cases h2 :
                (scanItems lister mo
                  (lister.getItems (lister.list ns options).1)).needed
            · rfl
            · exact absurd h2 hs
          rw [fetch_unchecked_clean lister mo ns options memo he hm' hs']
          by_cases hmn : m = ns <;> simp [hmn, h]

/-- C8: memo monotonicity: once a namespace's memo entry is true, it stays
true across arbitrarily many subsequent rounds, whatever their outcomes; no
round ever writes false or deletes an entry. -/
theorem memo_monotonic {T L E : Type} (lister : RefreshLister T L E)
    (mo : MetaObject T) (seq : List (String × ListOptions))
    (memo : String → Bool) (m : String) (h : memo m = true) :
    runRounds lister mo seq memo m = true := by
  induction seq generalizing memo with
  | nil => exact h
  | cons p rest ih =>
      cases p with
      | mk ns o =>
          exact ih (fetchOrRefreshList lister mo ns o memo).memo
            (fetch_memo_mono lister mo ns o memo m h)

/-- C8 witness: a marked namespace stays marked across two further rounds, one
of them for a different namespace. -/
theorem memo_monotonic_witness :
    runRounds wListerA TaskRun.metaObject [("ns", wOpts), ("other", wOpts)]
      wMemoNs "ns" = true :=
  memo_monotonic wListerA TaskRun.metaObject [("ns", wOpts), ("other", wOpts)]
    wMemoNs "ns" rfl

/-- C10: frame property: a round can change only its own namespace's memo
entry, and every `List` call it makes targets that namespace with either the
caller's options unchanged or the deep copy in which only `ResourceVersion`
was cleared. -/
theorem fetchOrRefreshList_frame {T L E : Type}
    (lister : RefreshLister T L E) (mo : MetaObject T) (ns : String)
    (options : ListOptions) (memo : String → Bool) :
    (∀ m, m ≠ ns → (fetchOrRefreshList lister mo ns options memo).memo m = memo m) ∧
    (∀ p ∈ listCallsOf (fetchOrRefreshList lister mo ns options memo).calls,
      p.1 = ns ∧ (p.2 = options ∨ p.2 = clearResourceVersion options)) ∧
    ((clearResourceVersion options).LabelSelector = options.LabelSelector ∧
      (clearResourceVersion options).FieldSelector = options.FieldSelector ∧
      (clearResourceVersion options).Limit = options.Limit ∧
      (clearResourceVersion options).Continue = options.Continue ∧
      (clearResourceVersion options).ResourceVersion = "") := by
  refine ⟨?_, ?_, rfl, rfl, rfl, rfl, rfl⟩
  · intro m hmn
    cases he : (lister.list ns options).2 with
    | some e =>
        rw [fetch_listError lister mo ns options memo e he]
    | none =>
        by_cases hm : memo ns = true
        · rw [fetch_checked lister mo ns options memo he hm]
        · have hm' : memo ns = false := by
            cases h2 : memo ns
            · rfl
            · exact absurd h2 hm
          by_cases hs :
              (scanItems lister mo
                (lister.getItems (lister.list ns options).1)).needed = true
          · rw [fetch_unchecked_refresh lister mo ns options memo he hm' hs]
            cases h2 : (lister.list ns (clearResourceVersion options)).2 <;>
              simp [h2, hmn]
          · have hs' :
                (scanItems lister mo
                  (lister.getItems (lister.list ns options).1)).needed = false := by
              cases h2 :
                  (scanItems lister mo
                    (lister.getItems (lister.list ns options).1)).needed
              · rfl
              · exact absurd h2 hs
            rw [fetch_unchecked_clean lister mo ns options memo he hm' hs']
            simp [hmn]
  · intro p hp
    cases he : (lister.list ns options).2 with
    | some e =>
        rw [fetch_listError lister mo ns options memo e he] at hp
        simp [listCallsOf] at hp
        subst hp
        exact ⟨rfl, Or.inl rfl⟩
    | none =>
        by_cases hm : memo ns = true
        · rw [fetch_checked lister mo ns options memo he hm] at hp
          simp [listCallsOf] at hp
          subst hp
          exact ⟨rfl, Or.inl rfl⟩
        · have hm' : memo ns = false := by
            cases h : memo ns
            · rfl
            · exact absurd h hm
          by_cases hs :
              (scanItems lister mo
                (lister.getItems (lister.list ns options).1)).needed = true
          · rw [fetch_unchecked_refresh lister mo ns options memo he hm' hs] at hp
            simp [listCallsOf, listCallsOf_append, listCallsOf_scanItems] at hp
            rcases hp with hp | hp <;> subst hp
            · exact ⟨rfl, Or.inl rfl⟩
            · exact ⟨rfl, Or.inr rfl⟩
          · have hs' :
                (scanItems lister mo
                  (lister.getItems (lister.list ns options).1)).needed = false := by
              cases h :
                  (scanItems lister mo
                    (lister.getItems (lister.list ns options).1)).needed
              · rfl
              · exact absurd h hs
            rw [fetch_unchecked_clean lister mo ns options memo he hm' hs'] at hp
            simp [listCallsOf, listCallsOf_scanItems] at hp
            subst hp
            exact ⟨rfl, Or.inl rfl⟩

/-- C10 witness: after the divergence round for "ns", the memo entry of the
untouched namespace "other" still reads false. -/
theorem fetchOrRefreshList_frame_witness :
    (fetchOrRefreshList wListerA TaskRun.metaObject "ns" wOpts wEmptyMemo).memo
      "other" = false := by
  have h := fetchOrRefreshList_frame wListerA TaskRun.metaObject "ns" wOpts
    wEmptyMemo
  rw [h.1 "other" (by decide)]
  rfl

end PipelineRefresh
